import Mathlib

/-!
Verification development for the eerie-viewer-workflows repository.

The numerical core (src/eerieview/trends/regression.py, trends/api.py), the
member-key model (src/eerieview/data_models.py), the period slicing
(src/eerieview/data_processing.py) and the product orchestration
(src/eerieview/product_computation.py) are shallowly embedded below.

IEEE double-precision values are modelled by `EFloat`: NaN, the two
infinities, and finite values represented exactly as rationals.  The model
keeps the IEEE special-value algebra (NaN propagation, signed infinities,
division by zero) but abstracts from rounding: all the properties proved
here concern control flow, index selection, sentinel outputs and flag codes,
none of which depend on rounding of finite values.  External numerical
library routines used by the source (numpy.sqrt, numpy.corrcoef and the
numba_stats Student-t cdf/ppf) are passed in as explicit function
parameters (`ExtFuns`); every theorem below holds for all instantiations.
-/

/-- Model of an IEEE double: NaN, plus/minus infinity, or an exact finite
value. -/
inductive EFloat where
  | nan : EFloat
  | inf : EFloat
  | ninf : EFloat
  | fin : ℚ → EFloat
deriving DecidableEq, Repr

namespace EFloat

/-- NaN test (IEEE `x != x`). -/
def isNaN : EFloat → Bool
  | nan => true
  | _ => false

/-- Comparison against floating zero: used to model `numpy.nonzero`, which
keeps every entry that does not compare equal to 0 (so NaN counts as
nonzero). -/
def isZeroE : EFloat → Bool
  | fin q => q == 0
  | _ => false

/-- IEEE negation. -/
def neg : EFloat → EFloat
  | nan => nan
  | inf => ninf
  | ninf => inf
  | fin q => fin (-q)

/-- IEEE addition on the model. -/
def add : EFloat → EFloat → EFloat
  | nan, _ => nan
  | _, nan => nan
  | inf, ninf => nan
  | ninf, inf => nan
  | inf, _ => inf
  | _, inf => inf
  | ninf, _ => ninf
  | _, ninf => ninf
  | fin a, fin b => fin (a + b)

/-- IEEE subtraction. -/
def sub (a b : EFloat) : EFloat := add a (neg b)

/-- IEEE multiplication (0 times infinity is NaN). -/
def mul : EFloat → EFloat → EFloat
  | nan, _ => nan
  | _, nan => nan
  | inf, inf => inf
  | inf, ninf => ninf
  | ninf, inf => ninf
  | ninf, ninf => inf
  | inf, fin q => if 0 < q then inf else if q < 0 then ninf else nan
  | fin q, inf => if 0 < q then inf else if q < 0 then ninf else nan
  | ninf, fin q => if 0 < q then ninf else if q < 0 then inf else nan
  | fin q, ninf => if 0 < q then ninf else if q < 0 then inf else nan
  | fin a, fin b => fin (a * b)

/-- IEEE division under the numpy error model: a finite nonzero value
divided by zero gives a signed infinity, 0/0 gives NaN.  The regression
source is numba-njit-compiled with the DEFAULT error model "python", under
which a zero denominator raises ZeroDivisionError instead; that faithful
variant is `EFloat.divPy` below.  Claims proved over this total model only
exercise divisions with nonzero denominators or paths that return before
any division. -/
def div : EFloat → EFloat → EFloat
  | nan, _ => nan
  | _, nan => nan
  | inf, inf => nan
  | inf, ninf => nan
  | ninf, inf => nan
  | ninf, ninf => nan
  | inf, fin q => if q < 0 then ninf else inf
  | ninf, fin q => if q < 0 then inf else ninf
  | fin _, inf => fin 0
  | fin _, ninf => fin 0
  | fin a, fin b =>
      if b = 0 then (if 0 < a then inf else if a < 0 then ninf else nan)
      else fin (a / b)

/-- IEEE strict less-than: false whenever either side is NaN. -/
def lt : EFloat → EFloat → Bool
  | nan, _ => false
  | _, nan => false
  | ninf, ninf => false
  | ninf, _ => true
  | _, ninf => false
  | inf, _ => false
  | _, inf => true
  | fin a, fin b => decide (a < b)

/-- IEEE absolute value (`numpy.absolute`). -/
def absE : EFloat → EFloat
  | nan => nan
  | inf => inf
  | ninf => inf
  | fin q => fin |q|

end EFloat

deriving instance DecidableEq for Except

/-- Embedding of `numpy.nansum` on a vector: NaN entries are skipped, the
empty sum is 0. -/
def nansum (l : List EFloat) : EFloat :=
  l.foldl (fun acc v => if v.isNaN then acc else EFloat.add acc v) (EFloat.fin 0)

/-- Embedding of `numpy.nanmean` (also xarray's default skipna mean): the
mean of the non-NaN entries, NaN when none remain. -/
def nanmeanE (l : List EFloat) : EFloat :=
  let valid := l.filter (fun v => ! v.isNaN)
  if valid.length = 0 then EFloat.nan
  else EFloat.div (valid.foldl EFloat.add (EFloat.fin 0)) (EFloat.fin (valid.length : ℚ))

/-- External numerical routines the trend estimator calls but which live
outside this repository (numpy and numba_stats).  They are total on floats
(they return NaN/inf on degenerate input rather than raising), so they are
modelled as arbitrary total functions; every theorem holds for all of them. -/
structure ExtFuns where
  sqrt : EFloat → EFloat
  corrcoef : List EFloat → List EFloat → EFloat
  tcdf : EFloat → EFloat → EFloat
  tppf : EFloat → EFloat → EFloat

/-- Arbitrary instantiation of the external routines, used to evaluate the
embedding on concrete inputs whose results do not depend on them. -/
def stubFuns : ExtFuns :=
  ⟨fun _ => EFloat.nan, fun _ _ => EFloat.nan, fun _ _ => EFloat.nan, fun _ _ => EFloat.nan⟩

/-- Embedding of `mklr` (src/eerieview/trends/regression.py): closed-form
univariate OLS of y on x; raises (models `NotImplementedError`) exactly when
the lengths differ.  Returns (intercept r0, its stderr sig0, slope r1, its
stderr sig1).  This version idealises the divisions as total (numpy error
model); `mklrPy` below is the faithful variant for numba's default python
error model, where a zero denominator (zero-variance x, or n = 2) raises. -/
def mklr (sqrtF : EFloat → EFloat) (x y : List EFloat) :
    Except String (EFloat × EFloat × EFloat × EFloat) :=
  if x.length ≠ y.length then .error "Length of vectors does not match."
  else
    let n := x.length
    let s0 : EFloat := .fin (n : ℚ)
    let s1 := nansum x
    let s2 := nansum (x.map (fun v => EFloat.mul v v))
    let v0 := nansum y
    let v1 := nansum (List.zipWith EFloat.mul x y)
    let den := EFloat.sub (EFloat.mul s2 s0) (EFloat.mul s1 s1)
    let r0 := EFloat.div (EFloat.sub (EFloat.mul s2 v0) (EFloat.mul s1 v1)) den
    let r1 := EFloat.div (EFloat.add (EFloat.neg (EFloat.mul s1 v0)) (EFloat.mul s0 v1)) den
    let e := List.zipWith (fun yi xi => EFloat.sub yi (EFloat.add r0 (EFloat.mul r1 xi))) y x
    let smin := nansum (e.map (fun v => EFloat.mul v v))
    let nm2 : EFloat := .fin (((n : ℤ) - 2 : ℤ) : ℚ)
    let sig0 := sqrtF (EFloat.div (EFloat.mul (EFloat.div s2 den) smin) nm2)
    let sig1 := sqrtF (EFloat.div (EFloat.mul (EFloat.div s0 den) smin) nm2)
    .ok (r0, sig0, r1, sig1)

/-- Index selection of `ltr_OLSdofrNaN` (regression.py line 164):
`ia = numpy.nonzero(y)[0]` keeps the indices whose value does not compare
equal to 0 — NaN compares unequal to 0 and is therefore KEPT, an exact 0.0
is DROPPED. -/
def nonzeroIdx (y : List EFloat) : List ℕ :=
  (List.range y.length).filter (fun i => ! (y.getD i (EFloat.fin 0)).isZeroE)

/-- Index set described by the specification's words for the same step:
the valid points are the non-NaN entries of y.  Declared only to compare
the spec's reading with the source's `nonzeroIdx`. -/
def specValidIdx (y : List EFloat) : List ℕ :=
  (List.range y.length).filter (fun i => ! (y.getD i (EFloat.fin 0)).isNaN)

/-- Result tuple of `ltr_OLSdofrNaN`, in the order returned by the source:
b, cinthw, sig, DOFr, rho, pval, irrc, N, a, Na, Nc. -/
structure LtrResult where
  b : EFloat
  cinthw : EFloat
  sig : EFloat
  DOFr : EFloat
  rho : EFloat
  pval : EFloat
  irrc : ℤ
  N : ℕ
  a : EFloat
  Na : ℕ
  Nc : EFloat
deriving DecidableEq, Repr

instance : Inhabited LtrResult :=
  ⟨⟨.nan, .inf, .inf, .fin 0, .nan, .fin 1, 0, 0, .nan, 0, .nan⟩⟩

/-- Embedding of `ltr_OLSdofrNaN` (regression.py lines 76-240), the
Santer-style trend estimator.  Notes on the translation:
the residual vector `e` (zeros_like(x), NaN-filled, then `e[ia] = ea`) is
represented by the pointwise function `eAt`, which is NaN outside `ia` and
the OLS residual on `ia`; the lag-1 pair matrix `EE` and the selector
`ic = argwhere(~isnan(EE.sum(axis=1)))` become a filter on pair indices by
non-NaN pair sum.  Out-of-bounds indexing on inputs of differing lengths is
unchecked in the numba-compiled source (undefined behaviour) and is modelled
by a default value; the theorems about this function only ever instantiate
it in the in-bounds regime.  Like `mklr`, this version idealises scalar
division as total; `ltr_OLSdofrNaNPy` below threads the ZeroDivisionError
of numba's default python error model through every division.  The claims
proved over this version only exercise paths whose divisions have nonzero
denominators (or that return before any arithmetic). -/
def ltr_OLSdofrNaN (fns : ExtFuns) (x y : List EFloat) (p : EFloat) :
    Except String LtrResult :=
  let N := x.length
  let ia := nonzeroIdx y
  let na := ia.length
  if na < 3 then
    .ok ⟨.nan, .inf, .inf, .fin 0, .nan, .fin 1, 1000, N, .nan, na, .nan⟩
  else
    let xa := ia.map (fun i => x.getD i (EFloat.fin 0))
    let ya := ia.map (fun i => y.getD i (EFloat.fin 0))
    match mklr fns.sqrt xa ya with
    | .error msg => .error msg
    | .ok (a, _sa, b, _sb) =>
      let eAt : ℕ → EFloat := fun i =>
        if (y.getD i (EFloat.fin 0)).isZeroE then .nan
        else EFloat.sub (EFloat.sub (y.getD i (EFloat.fin 0)) a)
               (EFloat.mul b (x.getD i (EFloat.fin 0)))
      let ic := (List.range (N - 1)).filter
        (fun i => ! (EFloat.add (eAt i) (eAt (i + 1))).isNaN)
      let nc := ic.length
      let rho : EFloat :=
        if nc < 2 then .nan
        else fns.corrcoef (ic.map eAt) (ic.map (fun i => eAt (i + 1)))
      let irrc1 : ℤ := if nc < 2 then 100 else 0
      if rho.isNaN then
        .ok ⟨b, .inf, .inf, .fin 0, rho, .fin 1, irrc1 + 100, N, a, na, .fin (nc : ℚ)⟩
      else
        let rhop := if EFloat.lt rho (EFloat.fin 0) then EFloat.fin 0 else rho
        let irrc2 : ℤ := irrc1 + (if EFloat.lt rho (EFloat.fin 0) then 1 else 0)
        let dofr := EFloat.div (EFloat.mul (EFloat.fin (na : ℚ)) (EFloat.sub (EFloat.fin 1) rhop))
          (EFloat.add (EFloat.fin 1) rhop)
        let irrc3 : ℤ := irrc2 + (if EFloat.lt dofr (EFloat.fin 3) then 10 else 0)
        if EFloat.lt (EFloat.fin 2) dofr then
          let sig := EFloat.mul _sb (fns.sqrt (EFloat.div (EFloat.fin (((na : ℤ) - 2 : ℤ) : ℚ))
            (EFloat.sub dofr (EFloat.fin 2))))
          let pval := EFloat.mul (EFloat.fin 2) (EFloat.sub (EFloat.fin 1)
            (fns.tcdf (EFloat.div b.absE sig) (EFloat.sub dofr (EFloat.fin 2))))
          let cinthw := EFloat.mul sig (fns.tppf
            (EFloat.add (EFloat.fin (1 / 2)) (EFloat.div p (EFloat.fin 2)))
            (EFloat.sub dofr (EFloat.fin 2)))
          .ok ⟨b, cinthw, sig, dofr, rho, pval, irrc3, N, a, na, .fin (nc : ℚ)⟩
        else
          .ok ⟨b, .inf, .inf, dofr, rho, .fin 1, irrc3, N, a, na, .fin (nc : ℚ)⟩

/-- Total wrapper around the estimator, used by the callers in
trends/api.py (where both core-dimension arrays always have equal length, so
within the total model the exception path is dead; `ltr_isOk` below proves
it never fires there). -/
def ltrRun (fns : ExtFuns) (x y : List EFloat) (p : EFloat) : LtrResult :=
  ((ltr_OLSdofrNaN fns x y p).toOption).getD default

/-!
Error-model refinement.  Both regression functions are compiled with
`@numba.njit(...)` and no `error_model` option, so numba's DEFAULT error
model "python" applies: a scalar float division whose denominator compares
equal to zero raises `ZeroDivisionError` rather than producing IEEE
inf/NaN.  The definitions below repeat the embedding of the two regression
functions with that error model, threading the possible ZeroDivisionError
through every scalar division the source performs.
-/

/-- Python-level exceptions of the regression module: the explicit
`NotImplementedError` of the length check in `mklr`, and the
`ZeroDivisionError` raised by a zero-denominator scalar division under
numba's default error model. -/
inductive PyErr where
  | notImplemented : PyErr
  | zeroDivision : PyErr
deriving DecidableEq, Repr

/-- Scalar float division under numba's default error model ("python"):
raises `ZeroDivisionError` whenever the denominator compares equal to 0.0
(also for inf/0 and 0/0); otherwise IEEE division. -/
def EFloat.divPy (a b : EFloat) : Except PyErr EFloat :=
  if b.isZeroE then .error .zeroDivision else .ok (EFloat.div a b)

/-- Outcomes of the python-error-model embedding once the length check has
passed: a value, or a ZeroDivisionError. -/
def okOrZeroDiv {α : Type} (m : Except PyErr α) : Prop :=
  m.isOk = true ∨ m = .error .zeroDivision

/-- Embedding of `mklr` under numba's default python error model: the same
computation as `mklr`, but every scalar division can raise
`ZeroDivisionError` — the normal-equation denominator `s2*s0 - s1**2` is
zero when the predictor values have zero variance, and `n - 2` is zero for
two points. -/
def mklrPy (sqrtF : EFloat → EFloat) (x y : List EFloat) :
    Except PyErr (EFloat × EFloat × EFloat × EFloat) :=
  if x.length ≠ y.length then .error .notImplemented
  else do
    let n := x.length
    let s0 : EFloat := .fin (n : ℚ)
    let s1 := nansum x
    let s2 := nansum (x.map (fun v => EFloat.mul v v))
    let v0 := nansum y
    let v1 := nansum (List.zipWith EFloat.mul x y)
    let den := EFloat.sub (EFloat.mul s2 s0) (EFloat.mul s1 s1)
    let r0 ← EFloat.divPy (EFloat.sub (EFloat.mul s2 v0) (EFloat.mul s1 v1)) den
    let r1 ← EFloat.divPy (EFloat.add (EFloat.neg (EFloat.mul s1 v0)) (EFloat.mul s0 v1)) den
    let e := List.zipWith (fun yi xi => EFloat.sub yi (EFloat.add r0 (EFloat.mul r1 xi))) y x
    let smin := nansum (e.map (fun v => EFloat.mul v v))
    let nm2 : EFloat := .fin (((n : ℤ) - 2 : ℤ) : ℚ)
    let q0 ← EFloat.divPy s2 den
    let q1 ← EFloat.divPy (EFloat.mul q0 smin) nm2
    let sig0 := sqrtF q1
    let q2 ← EFloat.divPy s0 den
    let q3 ← EFloat.divPy (EFloat.mul q2 smin) nm2
    let sig1 := sqrtF q3
    pure (r0, sig0, r1, sig1)

/-- Embedding of `ltr_OLSdofrNaN` under numba's default python error model:
identical control flow to `ltr_OLSdofrNaN`, with every scalar division
routed through `EFloat.divPy` (the `mklrPy` call, the reduced-DOF
computation, the stderr adjustment, the t-statistic `|b|/sig` and the
`p/2` of the confidence quantile). -/
def ltr_OLSdofrNaNPy (fns : ExtFuns) (x y : List EFloat) (p : EFloat) :
    Except PyErr LtrResult :=
  let N := x.length
  let ia := nonzeroIdx y
  let na := ia.length
  if na < 3 then
    pure ⟨.nan, .inf, .inf, .fin 0, .nan, .fin 1, 1000, N, .nan, na, .nan⟩
  else do
    let xa := ia.map (fun i => x.getD i (EFloat.fin 0))
    let ya := ia.map (fun i => y.getD i (EFloat.fin 0))
    let (a, _sa, b, _sb) ← mklrPy fns.sqrt xa ya
    let eAt : ℕ → EFloat := fun i =>
      if (y.getD i (EFloat.fin 0)).isZeroE then .nan
      else EFloat.sub (EFloat.sub (y.getD i (EFloat.fin 0)) a)
             (EFloat.mul b (x.getD i (EFloat.fin 0)))
    let ic := (List.range (N - 1)).filter
      (fun i => ! (EFloat.add (eAt i) (eAt (i + 1))).isNaN)
    let nc := ic.length
    let rho : EFloat :=
      if nc < 2 then .nan
      else fns.corrcoef (ic.map eAt) (ic.map (fun i => eAt (i + 1)))
    let irrc1 : ℤ := if nc < 2 then 100 else 0
    if rho.isNaN then
      pure ⟨b, .inf, .inf, .fin 0, rho, .fin 1, irrc1 + 100, N, a, na, .fin (nc : ℚ)⟩
    else
      let rhop := if EFloat.lt rho (EFloat.fin 0) then EFloat.fin 0 else rho
      let irrc2 : ℤ := irrc1 + (if EFloat.lt rho (EFloat.fin 0) then 1 else 0)
      let dofr ← EFloat.divPy
        (EFloat.mul (EFloat.fin (na : ℚ)) (EFloat.sub (EFloat.fin 1) rhop))
        (EFloat.add (EFloat.fin 1) rhop)
      let irrc3 : ℤ := irrc2 + (if EFloat.lt dofr (EFloat.fin 3) then 10 else 0)
      if EFloat.lt (EFloat.fin 2) dofr then do
        let w0 ← EFloat.divPy (EFloat.fin (((na : ℤ) - 2 : ℤ) : ℚ))
          (EFloat.sub dofr (EFloat.fin 2))
        let sig := EFloat.mul _sb (fns.sqrt w0)
        let w1 ← EFloat.divPy b.absE sig
        let pval := EFloat.mul (EFloat.fin 2) (EFloat.sub (EFloat.fin 1)
          (fns.tcdf w1 (EFloat.sub dofr (EFloat.fin 2))))
        let w2 ← EFloat.divPy p (EFloat.fin 2)
        let cinthw := EFloat.mul sig (fns.tppf
          (EFloat.add (EFloat.fin (1 / 2)) w2) (EFloat.sub dofr (EFloat.fin 2)))
        pure ⟨b, cinthw, sig, dofr, rho, pval, irrc3, N, a, na, .fin (nc : ℚ)⟩
      else
        pure ⟨b, .inf, .inf, dofr, rho, .fin 1, irrc3, N, a, na, .fin (nc : ℚ)⟩

/-!
Member identifiers (src/eerieview/data_models.py).  Python strings are
modelled as lists of characters; `str.split` on the dot, `".".join`,
`str.replace` and the `in` substring test are given direct recursive
embeddings below.
-/

/-- Embedding of Python `s.split(".")`: splits on every dot, keeping empty
fields, so the result always has one more field than there are dots. -/
def splitDots : List Char → List (List Char)
  | [] => [[]]
  | c :: cs =>
    match splitDots cs with
    | [] => [[]]
    | f :: rest => if c = '.' then [] :: f :: rest else (c :: f) :: rest

/-- Embedding of Python `".".join(fields)`. -/
def joinDots : List (List Char) → List Char
  | [] => []
  | [f] => f
  | f :: g :: rest => f ++ '.' :: joinDots (g :: rest)

/-- Embedding of Python `s.replace(pat, rep)`: replaces every
non-overlapping occurrence of `pat`, scanning left to right.  The source
never calls it with an empty pattern; that case is mapped to the identity. -/
def replaceAll (pat rep : List Char) : List Char → List Char
  | [] => []
  | c :: cs =>
    if h : pat = [] then c :: cs
    else if pat.isPrefixOf (c :: cs) then
      rep ++ replaceAll pat rep ((c :: cs).drop pat.length)
    else
      c :: replaceAll pat rep cs
termination_by s => s.length
decreasing_by
  · simp only [List.length_drop, List.length_cons]
    have hp : 0 < pat.length := List.length_pos.mpr h
    omega
  · simp [Nat.lt_succ_self]

/-- Embedding of Python `pat in s` (substring containment). -/
def containsSub (pat : List Char) : List Char → Bool
  | [] => pat.isEmpty
  | c :: cs => pat.isPrefixOf (c :: cs) || containsSub pat cs

/-- Embedding of the base `Member` dataclass (model, simulation, version,
grid): 4 dot-separated fields. -/
structure Member where
  model : List Char
  simulation : List Char
  version : List Char
  grid : List Char
deriving DecidableEq, Repr

/-- Embedding of `Member.from_string`: exactly 4 dot-separated fields or a
parse error (`RuntimeError` in the source). -/
def Member.from_string (s : List Char) : Except String Member :=
  match splitDots s with
  | [a, b, c, d] => .ok ⟨a, b, c, d⟩
  | _ => .error "Member string must have 4 sections separated by points"

/-- Embedding of `Member.to_string`: joins the dataclass fields, in
declaration order, with dots. -/
def Member.to_string (m : Member) : List Char :=
  joinDots [m.model, m.simulation, m.version, m.grid]

/-- Embedding of the `EERIEMember` dataclass.  Python dataclass inheritance
puts the base fields first, so the declared field order is model,
simulation, version, grid, realm, freq and `from_string` assigns the six
dot-separated pieces in that order. -/
structure EERIEMember where
  model : List Char
  simulation : List Char
  version : List Char
  grid : List Char
  realm : List Char
  freq : List Char
deriving DecidableEq, Repr

/-- Embedding of `EERIEMember.from_string` (npieces = 6). -/
def EERIEMember.from_string (s : List Char) : Except String EERIEMember :=
  match splitDots s with
  | [a, b, c, d, e, f] => .ok ⟨a, b, c, d, e, f⟩
  | _ => .error "Member string must have 6 sections separated by points"

/-- Embedding of `EERIEMember.to_string`. -/
def EERIEMember.to_string (m : EERIEMember) : List Char :=
  joinDots [m.model, m.simulation, m.version, m.grid, m.realm, m.freq]

/-- Embedding of `EERIEMember.to_ocean`: `copy.replace(self, realm="ocean")`. -/
def EERIEMember.to_ocean (m : EERIEMember) : EERIEMember :=
  { m with realm := "ocean".toList }

/-- Embedding of `EERIEMember.to_atmos`. -/
def EERIEMember.to_atmos (m : EERIEMember) : EERIEMember :=
  { m with realm := "atmos".toList }

/-- Embedding of `EERIEMember.to_daily`: `copy.replace(self, freq="daily")`. -/
def EERIEMember.to_daily (m : EERIEMember) : EERIEMember :=
  { m with freq := "daily".toList }

/-- Embedding of the `CmorEerieMember` dataclass (base fields then
cmor_table; npieces = 5). -/
structure CmorEerieMember where
  model : List Char
  simulation : List Char
  version : List Char
  grid : List Char
  cmor_table : List Char
deriving DecidableEq, Repr

/-- Embedding of `CmorEerieMember.from_string` (npieces = 5). -/
def CmorEerieMember.from_string (s : List Char) : Except String CmorEerieMember :=
  match splitDots s with
  | [a, b, c, d, e] => .ok ⟨a, b, c, d, e⟩
  | _ => .error "Member string must have 5 sections separated by points"

/-- Embedding of `CmorEerieMember.to_string`. -/
def CmorEerieMember.to_string (m : CmorEerieMember) : List Char :=
  joinDots [m.model, m.simulation, m.version, m.grid, m.cmor_table]

/-- Embedding of `CmorEerieMember.to_ocean`: every "A" in the table code is
replaced by "O" (`self.cmor_table.replace("A", "O")`). -/
def CmorEerieMember.to_ocean (m : CmorEerieMember) : CmorEerieMember :=
  { m with cmor_table := replaceAll "A".toList "O".toList m.cmor_table }

/-- Embedding of `CmorEerieMember.to_atmos`. -/
def CmorEerieMember.to_atmos (m : CmorEerieMember) : CmorEerieMember :=
  { m with cmor_table := replaceAll "O".toList "A".toList m.cmor_table }

/-- Embedding of `CmorEerieMember.to_daily`: "Omon" becomes "Oday", every
other table becomes "day". -/
def CmorEerieMember.to_daily (m : CmorEerieMember) : CmorEerieMember :=
  { m with cmor_table := if m.cmor_table = "Omon".toList then "Oday".toList else "day".toList }

/-!
Datasets and period slicing (src/eerieview/data_processing.py and
src/eerieview/product_computation.py).  A dataset is modelled by its time
axis (a list of dates, the xarray invariant being that every data variable
is laid out along it) and the values of its single product variable: one
spatial field (a flat list of cells) per time step.  Spatial dims beyond one
flat cell axis, attributes, and chunking carry no logic in the claims and
are not represented; `squeeze` is a no-op on this representation.
-/

/-- Calendar date, ordered lexicographically (midnight timestamps; the
source compares datetimes, which on whole dates is this order). -/
structure Date where
  year : ℤ
  month : ℤ
  day : ℤ
deriving DecidableEq, Repr

/-- Chronological comparison of dates. -/
def dateLe (a b : Date) : Bool :=
  if a.year < b.year then true
  else if b.year < a.year then false
  else if a.month < b.month then true
  else if b.month < a.month then false
  else decide (a.day ≤ b.day)

/-- Membership of a timestamp in the inclusive slice
`[start_year-01-01, end_year-12-31]` built by `slice_period`. -/
def inPeriod (p : ℤ × ℤ) (t : Date) : Bool :=
  dateLe ⟨p.1, 1, 1⟩ t && dateLe t ⟨p.2, 12, 31⟩

/-- Errors of the orchestration layer: `EmptySliceError` from slicing, and
the IndexError that `isel(time=0)` raises on an empty time axis. -/
inductive PErr where
  | emptySlice : PErr
  | indexError : PErr
deriving DecidableEq, Repr

/-- Dataset model: time axis plus one spatial field per time step for the
product variable. -/
structure TDataset where
  times : List Date
  var : List (List EFloat)
deriving DecidableEq, Repr

/-- Embedding of `slice_period` (data_processing.py lines 20-45): restrict
to the inclusive range [period.1-01-01, period.2-12-31] (xarray `.sel` with
a slice keeps exactly the in-range time points of a monotone time axis) and
raise `EmptySliceError` when no time point remains. -/
def slice_period (ds : TDataset) (period : ℤ × ℤ) : Except PErr TDataset :=
  let pairs := (ds.times.zip ds.var).filter (fun tv => inPeriod period tv.1)
  if pairs.length = 0 then .error .emptySlice
  else .ok ⟨pairs.map Prod.fst, pairs.map Prod.snd⟩

/-- Embedding of `aggregate_period`: slice, then mean over the time
dimension (pointwise over space, skipping NaN); propagates the empty-slice
error. -/
def aggregate_period (ds : TDataset) (period : ℤ × ℤ) : Except PErr (List EFloat) :=
  (slice_period ds period).map (fun sl => sl.var.transpose.map nanmeanE)

/-- Embedding of the per-cell kernel `_compute_trend` (trends/api.py lines
8-12): run the estimator on (years, cell series) with the default
confidence level p = 0.90 and keep slope and p-value. -/
def compute_trend_cell (fns : ExtFuns) (years cell : List EFloat) : EFloat × EFloat :=
  let r := ltrRun fns years cell (EFloat.fin (9 / 10))
  (r.b, r.pval)

/-- Embedding of `compute_trend` (trends/api.py lines 20-65).  The
`apply_ufunc` over the time core dimension is the per-cell map below
(`cells` lists each spatial cell's time series); after it, the source builds
`not_nan_mask = ~isnan(p_value)` and overwrites with 0 the trend cells that
are NaN while their p-value is not, then scales by 10 for decadal output.
The float32 casts of the source only round finite values and are not
represented. -/
def compute_trend (fns : ExtFuns) (cells : List (List EFloat)) (years : List EFloat)
    (as_decadal : Bool) : List EFloat × List EFloat :=
  let pairs := cells.map (fun cell => compute_trend_cell fns years cell)
  let trend := pairs.map Prod.fst
  let p_value := pairs.map Prod.snd
  let not_nan_mask := p_value.map (fun q => ! q.isNaN)
  let trend2 := List.zipWith (fun t m => if t.isNaN && m then EFloat.fin 0 else t)
    trend not_nan_mask
  let trend3 := if as_decadal then trend2.map (fun t => EFloat.mul t (EFloat.fin 10)) else trend2
  (trend3, p_value)

/-- Embedding of `.resample(time="YS").mean()` on a (nonempty) sliced
dataset: one bin per calendar year from the earliest to the latest year
present (resample materialises the full regular axis, so years with no data
give an all-NaN field), each bin the pointwise skipna mean of its fields.
Returns the bin years and the binned fields. -/
def resampleYS (sl : TDataset) : List ℤ × List (List EFloat) :=
  let ys := sl.times.map (fun t => t.year)
  match ys with
  | [] => ([], [])
  | y0 :: _ =>
    let lo := ys.foldl min y0
    let hi := ys.foldl max y0
    let yrs := (List.range (hi - lo + 1).toNat).map (fun i => lo + (i : ℤ))
    let fields := yrs.map (fun yr =>
      ((((sl.times.zip sl.var).filter (fun tv => tv.1.year == yr)).map Prod.snd).transpose).map
        nanmeanE)
    (yrs, fields)

/-- Product kinds of the decadal pipeline (the `DecadalProduct` Literal). -/
inductive DecadalProduct where
  | clim : DecadalProduct
  | trend : DecadalProduct
deriving DecidableEq, Repr

/-- Result of a decadal product computation: the product variable's spatial
field and, for trends, the companion p-value field (`varname_pvalue`). -/
structure PData where
  v : List EFloat
  pv : Option (List EFloat)
deriving DecidableEq, Repr

/-- Embedding of `get_decadal_product` (product_computation.py lines
49-73): climatology = period mean; trend = slice, yearly resample, then
`compute_trend` with `as_decadal=True` over the spatial cells.  Both
branches start from `slice_period`, so the empty-slice error is raised
exactly when the period contains no time point. -/
def get_decadal_product (fns : ExtFuns) (ds : TDataset) (period : ℤ × ℤ)
    (product : DecadalProduct) : Except PErr PData :=
  match product with
  | .clim => (aggregate_period ds period).map (fun f => ⟨f, none⟩)
  | .trend =>
    (slice_period ds period).map (fun sl =>
      let yb := resampleYS sl
      let cells := yb.2.transpose
      let tp := compute_trend fns cells (yb.1.map (fun z => EFloat.fin (z : ℚ))) true
      ⟨tp.1, some tp.2⟩)

/-- Embedding of `get_decadal_product_or_fill_with_nan`
(product_computation.py lines 281-302): try the product; on
`EmptySliceError` build the placeholder
`dataset.copy().isel(time=0).squeeze().drop_vars("time")` with the product
variable overwritten by NaN.  `isel(time=0)` itself raises an IndexError
when the time axis of the input dataset is empty. -/
def get_decadal_product_or_fill_with_nan (fns : ExtFuns) (ds : TDataset) (period : ℤ × ℤ)
    (product : DecadalProduct) : Except PErr PData :=
  match get_decadal_product fns ds period product with
  | .ok r => .ok r
  | .error .emptySlice =>
    match ds.times, ds.var with
    | [], _ => .error .indexError
    | _ :: _, [] => .error .indexError
    | _ :: _, f :: _ => .ok ⟨f.map (fun _ => EFloat.nan), none⟩
  | .error e => .error e

/-!
Member-dataset acquisition (product_computation.py lines 258-278 and
data_processing.py lines 338-361).  The external retrieval function
(`get_entry_dataset_fun`, an explicit Callable parameter in the source too)
is modelled as a function from (member object, raw variable name) to either
a dataset or an error; only `KeyError` is caught.  An xarray dataset
distinguishes its dimensions from its variable and coordinate NAMES: the
source's guard `"realization" in dataset` is a name-membership test, so the
model separates a realization dimension that carries its coordinate
variable (name present — the usual ensemble layout) from a bare realization
dimension without one (name absent).  The `member` argument reaching
`get_member_dataset` is a `Member` dataclass instance, per that function's
own annotation. -/

/-- Errors of the retrieval step: `KeyError` from the external retrieval
function (the only exception the source catches), the `AttributeError`
raised when `retry_get_entry_with_fixes` calls the string method
`member.replace` on a `Member` dataclass, and anything else. -/
inductive FetchErr where
  | keyError : FetchErr
  | attributeError : FetchErr
  | otherError : FetchErr
deriving DecidableEq, Repr

/-- Fetched dataset: plain; or with a `realization` dimension AND its
coordinate variable of the same name (one field per realization member);
or with a bare `realization` dimension that has no variable or coordinate
named "realization". -/
inductive FetchDS where
  | plain : List EFloat → FetchDS
  | withReal : List (List EFloat) → FetchDS
  | withRealDimOnly : List (List EFloat) → FetchDS
deriving DecidableEq, Repr

/-- Embedding of the guard `"realization" in dataset`: xarray `in` tests
variable and coordinate names, so it holds only when the coordinate
variable exists, not for a bare dimension. -/
def realizationInDataset : FetchDS → Bool
  | .withReal _ => true
  | _ => false

/-- Presence of the `realization` dimension itself, with or without its
coordinate variable. -/
def hasRealizationDim : FetchDS → Bool
  | .plain _ => false
  | _ => true

/-- Embedding of `dataset.mean(dim="realization")`: pointwise skipna mean
across the realization members. -/
def meanRealization (vs : List (List EFloat)) : List EFloat :=
  vs.transpose.map nanmeanE

/-- The realization-averaging step of `get_member_dataset` (lines 275-277):
`if "realization" in dataset: dataset = dataset.mean(dim="realization")`.
The mean is taken only when the name-membership guard holds, so a bare
realization dimension passes through untouched. -/
def dropRealization : FetchDS → FetchDS
  | .withReal vs => .plain (meanRealization vs)
  | d => d

/-- Embedding of `retry_get_entry_with_fixes` itself (data_processing.py
lines 338-361), which by its own annotation expects a STRING member:
rewrite "monthly" to "daily" in the member string; for tasmax/tasmin on
fesom members also rewrite "avg" and suffix the raw name with "24"; then
call the retrieval function once with the fixed names.  Its only caller,
`get_member_dataset`, instead passes a `Member` dataclass, on which the
very first statement `member.replace("monthly", "daily")` fails attribute
lookup — see `get_member_dataset` below. -/
def retry_get_entry_with_fixes (fetch : List Char → List Char → Except FetchErr FetchDS)
    (member rawname varname : List Char) :
    Except FetchErr (FetchDS × List Char × List Char) :=
  let member1 := replaceAll "monthly".toList "daily".toList member
  let mr2 :=
    if varname = "tasmax".toList && containsSub "fesom".toList member1 then
      (replaceAll "avg".toList "max".toList member1,
        if containsSub "24".toList rawname then rawname else rawname ++ "24".toList)
    else (member1, rawname)
  let mr3 :=
    if varname = "tasmin".toList && containsSub "fesom".toList mr2.1 then
      (replaceAll "avg".toList "min".toList mr2.1,
        if containsSub "24".toList mr2.2 then mr2.2 else mr2.2 ++ "24".toList)
    else mr2
  (fetch mr3.1 mr3.2).map (fun ds => (ds, mr3.1, mr3.2))

/-- The member object as it flows through the product-computation layer:
one of the three dataclass variants.  None of them defines a `replace`
attribute — their methods are from_string/to_string/slug and the
to_ocean/to_atmos/to_daily transforms — which is what makes the retry call
below fail. -/
inductive MemberObj where
  | base : Member → MemberObj
  | eerie : EERIEMember → MemberObj
  | cmor : CmorEerieMember → MemberObj
deriving DecidableEq, Repr

/-- Embedding of `get_member_dataset` (product_computation.py lines
258-278): try the fetch; on `KeyError` call
`retry_get_entry_with_fixes(..., member, ...)` — but `member` here is the
`Member` dataclass (the function's own annotation), and the retry's first
statement `member.replace("monthly", "daily")` is a string method no
`Member` variant defines, so the attribute lookup raises `AttributeError`
before any retrieval: the retry arm never produces a dataset.  When the
first fetch succeeds, the realization average is applied under the
name-membership guard `"realization" in dataset`. -/
def get_member_dataset (fetch : MemberObj → List Char → Except FetchErr FetchDS)
    (member : MemberObj) (rawname varname : List Char) :
    Except FetchErr (FetchDS × MemberObj × List Char) :=
  match fetch member rawname with
  | .ok ds => .ok (dropRealization ds, member, rawname)
  | .error .keyError => .error .attributeError
  | .error e => .error e

/-!
Concrete example inputs used by witnesses and counterexamples below.
-/

/-- Example EERIE member, from the repository's own test fixture
(positional parsing puts the fourth piece in `grid` and the fifth in
`realm`, mirroring the Python dataclass field order). -/
def egEERIEMember : EERIEMember :=
  ⟨"ifs-fesom2-sr".toList, "hist-1950".toList, "v20240304".toList,
   "atmos".toList, "gr025".toList, "2D_monthly_avg".toList⟩

/-- Example CMOR member with the monthly ocean table. -/
def egCmorMember : CmorEerieMember :=
  ⟨"ifs-nemo-er".toList, "hist-1950".toList, "v20250516".toList,
   "gr025".toList, "Omon".toList⟩

/-- Example CMOR member with the monthly atmosphere table. -/
def egCmorMemberA : CmorEerieMember :=
  ⟨"ifs-nemo-er".toList, "hist-1950".toList, "v20250516".toList,
   "gr025".toList, "Amon".toList⟩

/-- Two-step dataset used to exercise `slice_period`. -/
def egSliceDS : TDataset :=
  ⟨[⟨2000, 5, 1⟩, ⟨2002, 1, 1⟩], [[EFloat.fin 1], [EFloat.fin 2]]⟩

/-- One-step dataset lying outside the requested period, used to exercise
the NaN-fill recovery. -/
def egNanDS : TDataset :=
  ⟨[⟨1999, 1, 1⟩], [[EFloat.fin 1, EFloat.fin 2]]⟩

/-- Example member object for the acquisition layer. -/
def egMemberObj : MemberObj := .eerie egEERIEMember

/-- Retrieval stub returning a dataset with two ensemble realizations and
the realization coordinate present. -/
def egFetch : MemberObj → List Char → Except FetchErr FetchDS :=
  fun _ _ => .ok (.withReal [[EFloat.fin 1], [EFloat.fin 3]])

/-- Retrieval stub returning a dataset with a bare realization dimension
(no variable or coordinate named "realization"). -/
def egFetchBareDim : MemberObj → List Char → Except FetchErr FetchDS :=
  fun _ _ => .ok (.withRealDimOnly [[EFloat.fin 1], [EFloat.fin 3]])

/-- Retrieval stub whose first attempt always raises `KeyError`. -/
def egFetchKeyErr : MemberObj → List Char → Except FetchErr FetchDS :=
  fun _ _ => .error .keyError

/-!
Supporting lemmas.
-/

theorem splitDots_ne_nil (s : List Char) : splitDots s ≠ [] := by
  cases s with
  | nil => simp [splitDots]
  | cons c cs =>
    simp only [splitDots]
    cases h : splitDots cs with
    | nil => simp
    | cons f rest =>
      by_cases hc : c = '.' <;> simp [hc]

theorem joinDots_splitDots (s : List Char) : joinDots (splitDots s) = s := by
  induction s with
  | nil => rfl
  | cons c cs ih =>
    simp only [splitDots]
    cases h : splitDots cs with
    | nil => exact absurd h (splitDots_ne_nil cs)
    | cons f rest =>
      rw [h] at ih
      by_cases hc : c = '.'
      · subst hc
        simp only [if_pos rfl, joinDots]
        cases rest with
        | nil => simpa [joinDots] using ih
        | cons g rest2 => simpa [joinDots] using ih
      · simp only [if_neg hc]
        cases rest with
        | nil => simpa [joinDots] using ih
        | cons g rest2 => simpa [joinDots] using ih

theorem mklr_isOk_iff (sqrtF : EFloat → EFloat) (x y : List EFloat) :
    (mklr sqrtF x y).isOk = true ↔ x.length = y.length := by
  by_cases h : x.length = y.length <;> simp [mklr, h, Except.isOk, Except.toBool]

theorem ltr_isOk (fns : ExtFuns) (x y : List EFloat) (p : EFloat) :
    (ltr_OLSdofrNaN fns x y p).isOk = true := by
  unfold ltr_OLSdofrNaN
  by_cases hna : (nonzeroIdx y).length < 3
  · simp [hna, Except.isOk, Except.toBool]
  · have hlen : ¬ ((nonzeroIdx y).map (fun i => x.getD i (EFloat.fin 0))).length
        ≠ ((nonzeroIdx y).map (fun i => y.getD i (EFloat.fin 0))).length := by simp
    simp only [if_neg hna, mklr]
    rw [if_neg hlen]
    split
    · rename_i heq
      exact absurd heq (by simp)
    · repeat' split
      all_goals rfl

/-!
Claim theorems.
-/

/-- C1 (code_bug evidence): the point selection of `ltr_OLSdofrNaN` is NOT
the set of non-NaN indices the claim (and the function's own docstring,
which says NaN marks missing data) describe.  On y = [1, 0, 2], which has
three plain data points and no missing value, `numpy.nonzero` drops index 1
(value 0.0), leaving Na = 2, so the function answers with the
insufficient-data sentinels (irrc = 1000) and performs no fit; on
y = [NaN, 1, 2] the NaN index is counted as available. -/
theorem ltr_valid_point_selection_bug :
    nonzeroIdx [EFloat.fin 1, EFloat.fin 0, EFloat.fin 2] = [0, 2]
  ∧ specValidIdx [EFloat.fin 1, EFloat.fin 0, EFloat.fin 2] = [0, 1, 2]
  ∧ ltr_OLSdofrNaN stubFuns [EFloat.fin 0, EFloat.fin 1, EFloat.fin 2]
      [EFloat.fin 1, EFloat.fin 0, EFloat.fin 2] (EFloat.fin (9 / 10)) =
      .ok ⟨.nan, .inf, .inf, .fin 0, .nan, .fin 1, 1000, 3, .nan, 2, .nan⟩
  ∧ nonzeroIdx [EFloat.nan, EFloat.fin 1, EFloat.fin 2] = [0, 1, 2]
  ∧ specValidIdx [EFloat.nan, EFloat.fin 1, EFloat.fin 2] = [1, 2] :=
  ⟨rfl, rfl, rfl, rfl, rfl⟩

/-- C2: whenever the number of points the estimator selects as available is
below 3, `ltr_OLSdofrNaN` returns exactly the insufficient-data sentinel
tuple — NaN slope and intercept, +inf stderr and half-width, p-value 1,
reduced DOF 0, NaN rho and Nc, irregularity code 1000 — and performs no
fit. -/
theorem ltr_insufficient_data_contract (fns : ExtFuns) (x y : List EFloat) (p : EFloat)
    (h : (nonzeroIdx y).length < 3) :
    ltr_OLSdofrNaN fns x y p =
      .ok ⟨.nan, .inf, .inf, .fin 0, .nan, .fin 1, 1000, x.length, .nan,
        (nonzeroIdx y).length, .nan⟩ := by
  simp [ltr_OLSdofrNaN, h]

/-- Witness for C2 at a concrete input with a single available point. -/
theorem ltr_insufficient_data_contract_witness :
    ltr_OLSdofrNaN stubFuns [EFloat.fin 0, EFloat.fin 1, EFloat.fin 2]
      [EFloat.fin 0, EFloat.fin 0, EFloat.fin 5] (EFloat.fin (9 / 10)) =
      .ok ⟨.nan, .inf, .inf, .fin 0, .nan, .fin 1, 1000, 3, .nan, 1, .nan⟩ :=
  ltr_insufficient_data_contract stubFuns _ _ _ (by decide)

/-- C3 (code_bug evidence): with Na = 3 available points but no complete
lag-1 residual pair (Nc = 0 < 2), the source adds 100 once for `Nc < 2` and
then, because rho is still NaN, adds 100 a second time in the following
`rho != rho` check: the returned irregularity code is 200, not the 100 the
claim (and the function's docstring, which lists only the codes
0/1/10/100/1000) states.  The sentinel outputs rho = NaN, sig = +inf,
p-value = 1 and half-width = +inf of the claim do hold. -/
theorem ltr_autocorr_flag_double_added :
    ltr_OLSdofrNaN stubFuns
      [EFloat.fin 0, EFloat.fin 1, EFloat.fin 2, EFloat.fin 3, EFloat.fin 4]
      [EFloat.fin 1, EFloat.fin 0, EFloat.fin 2, EFloat.fin 0, EFloat.fin 4]
      (EFloat.fin (9 / 10)) =
      .ok ⟨.fin (3 / 4), .inf, .inf, .fin 0, .nan, .fin 1, 200, 5, .fin (5 / 6), 3, .fin 0⟩ := by
  with_unfolding_all rfl


theorem getD_map_of_lt {α β : Type} (f : α → β) (l : List α) (i : ℕ)
    (h : i < l.length) (d : β) (d2 : α) : (l.map f).getD i d = f (l.getD i d2) := by
  induction l generalizing i with
  | nil => simp at h
  | cons a t ih =>
    cases i with
    | zero => rfl
    | succ n =>
      simp only [List.map_cons, List.getD_cons_succ]
      exact ih n (by simpa using h)

theorem zipWith_map_same {α β γ δ : Type} (f : β → γ → δ) (u : α → β) (v : α → γ)
    (l : List α) : List.zipWith f (l.map u) (l.map v) = l.map (fun a => f (u a) (v a)) := by
  induction l with
  | nil => rfl
  | cons a t ih => simp [ih]

theorem compute_trend_eq_map (fns : ExtFuns) (cells : List (List EFloat))
    (years : List EFloat) (dec : Bool) :
    compute_trend fns cells years dec =
      (cells.map (fun cell =>
        let r := ltrRun fns years cell (EFloat.fin (9 / 10))
        let m := if r.b.isNaN && ! r.pval.isNaN then EFloat.fin 0 else r.b
        if dec then EFloat.mul m (EFloat.fin 10) else m),
       cells.map (fun cell => (ltrRun fns years cell (EFloat.fin (9 / 10))).pval)) := by
  unfold compute_trend compute_trend_cell
  simp only [List.map_map, Function.comp_def, zipWith_map_same]
  cases dec <;> simp [List.map_map, Function.comp_def]

/-- C5: in `compute_trend`, after the per-cell estimator runs, a cell whose
raw trend is NaN while its p-value is not NaN gets trend 0, and every other
cell — in particular every cell whose p-value is NaN — keeps its raw trend
value (so a NaN trend stays NaN there); the p-value field is returned
untouched.  The decadal scaling happens after the replacement. -/
theorem compute_trend_nan_replacement (fns : ExtFuns) (cells : List (List EFloat))
    (years : List EFloat) (dec : Bool) (i : ℕ) (hi : i < cells.length) :
    ((compute_trend fns cells years dec).1.getD i EFloat.nan =
      (let r := ltrRun fns years (cells.getD i []) (EFloat.fin (9 / 10))
       let m := if r.b.isNaN && ! r.pval.isNaN then EFloat.fin 0 else r.b
       if dec then EFloat.mul m (EFloat.fin 10) else m))
  ∧ (compute_trend fns cells years dec).2.getD i EFloat.nan =
      (ltrRun fns years (cells.getD i []) (EFloat.fin (9 / 10))).pval := by
  rw [compute_trend_eq_map]
  exact ⟨getD_map_of_lt _ cells i hi EFloat.nan [], getD_map_of_lt _ cells i hi EFloat.nan []⟩

/-- Witness for C5 on a one-cell grid with a clean linear series. -/
theorem compute_trend_nan_replacement_witness :
    (compute_trend stubFuns [[EFloat.fin 1, EFloat.fin 2, EFloat.fin 4]]
      [EFloat.fin 0, EFloat.fin 1, EFloat.fin 2] false).1.getD 0 EFloat.nan = EFloat.fin (3 / 2)
  ∧ (compute_trend stubFuns [[EFloat.fin 1, EFloat.fin 2, EFloat.fin 4]]
      [EFloat.fin 0, EFloat.fin 1, EFloat.fin 2] false).2.getD 0 EFloat.nan = EFloat.fin 1 := by
  have h := compute_trend_nan_replacement stubFuns [[EFloat.fin 1, EFloat.fin 2, EFloat.fin 4]]
    [EFloat.fin 0, EFloat.fin 1, EFloat.fin 2] false 0 (by decide)
  exact ⟨h.1.trans (by with_unfolding_all rfl), h.2.trans (by with_unfolding_all rfl)⟩

/-- C6: member identifier parsing and printing round-trip. -/
theorem member_string_roundtrip (s : List Char) :
    ((Member.from_string s).isOk = true ↔ (splitDots s).length = 4)
  ∧ (∀ m : Member, Member.from_string s = .ok m →
      Member.to_string m = s ∧ Member.from_string (Member.to_string m) = .ok m)
  ∧ ((EERIEMember.from_string s).isOk = true ↔ (splitDots s).length = 6)
  ∧ (∀ m : EERIEMember, EERIEMember.from_string s = .ok m →
      EERIEMember.to_string m = s ∧ EERIEMember.from_string (EERIEMember.to_string m) = .ok m)
  ∧ ((CmorEerieMember.from_string s).isOk = true ↔ (splitDots s).length = 5)
  ∧ (∀ m : CmorEerieMember, CmorEerieMember.from_string s = .ok m →
      CmorEerieMember.to_string m = s ∧ CmorEerieMember.from_string (CmorEerieMember.to_string m) = .ok m) := by
  refine ⟨?_, ?_, ?_, ?_, ?_, ?_⟩
  · rcases h : splitDots s with _ | ⟨a, _ | ⟨b, _ | ⟨c, _ | ⟨d, _ | ⟨e, t⟩⟩⟩⟩⟩ <;>
      simp [Member.from_string, h, Except.isOk, Except.toBool]
  · intro m hm
    have hm2 := hm
    unfold Member.from_string at hm2
    rcases h : splitDots s with _ | ⟨a, _ | ⟨b, _ | ⟨c, _ | ⟨d, _ | ⟨e, t⟩⟩⟩⟩⟩ <;>
      rw [h] at hm2 <;> simp at hm2
    subst hm2
    have hj := joinDots_splitDots s
    rw [h] at hj
    have hs : Member.to_string ⟨a, b, c, d⟩ = s := by simpa [Member.to_string] using hj
    refine ⟨hs, ?_⟩
    rw [hs]
    exact hm
  · rcases h : splitDots s with _ | ⟨a, _ | ⟨b, _ | ⟨c, _ | ⟨d, _ | ⟨e, _ | ⟨f, _ | ⟨g, t⟩⟩⟩⟩⟩⟩⟩ <;>
      simp [EERIEMember.from_string, h, Except.isOk, Except.toBool]
  · intro m hm
    have hm2 := hm
    unfold EERIEMember.from_string at hm2
    rcases h : splitDots s with _ | ⟨a, _ | ⟨b, _ | ⟨c, _ | ⟨d, _ | ⟨e, _ | ⟨f, _ | ⟨g, t⟩⟩⟩⟩⟩⟩⟩ <;>
      rw [h] at hm2 <;> simp at hm2
    subst hm2
    have hj := joinDots_splitDots s
    rw [h] at hj
    have hs : EERIEMember.to_string ⟨a, b, c, d, e, f⟩ = s := by
      simpa [EERIEMember.to_string] using hj
    refine ⟨hs, ?_⟩
    rw [hs]
    exact hm
  · rcases h : splitDots s with _ | ⟨a, _ | ⟨b, _ | ⟨c, _ | ⟨d, _ | ⟨e, _ | ⟨f, t⟩⟩⟩⟩⟩⟩ <;>
      simp [CmorEerieMember.from_string, h, Except.isOk, Except.toBool]
  · intro m hm
    have hm2 := hm
    unfold CmorEerieMember.from_string at hm2
    rcases h : splitDots s with _ | ⟨a, _ | ⟨b, _ | ⟨c, _ | ⟨d, _ | ⟨e, _ | ⟨f, t⟩⟩⟩⟩⟩⟩ <;>
      rw [h] at hm2 <;> simp at hm2
    subst hm2
    have hj := joinDots_splitDots s
    rw [h] at hj
    have hs : CmorEerieMember.to_string ⟨a, b, c, d, e⟩ = s := by
      simpa [CmorEerieMember.to_string] using hj
    refine ⟨hs, ?_⟩
    rw [hs]
    exact hm

/-- Witness for C6: the repository's own CMOR test identifier parses,
prints back to the identical string, and re-parses to the same key. -/
theorem member_string_roundtrip_witness :
    CmorEerieMember.to_string egCmorMemberA
      = "ifs-nemo-er.hist-1950.v20250516.gr025.Amon".toList
  ∧ CmorEerieMember.from_string (CmorEerieMember.to_string egCmorMemberA) = .ok egCmorMemberA :=
  (member_string_roundtrip "ifs-nemo-er.hist-1950.v20250516.gr025.Amon".toList).2.2.2.2.2
    egCmorMemberA (by decide)

theorem replaceAll_single_eq_map (a b : Char) (s : List Char) :
    replaceAll [a] [b] s = s.map (fun c => if c = a then b else c) := by
  induction s with
  | nil => simp [replaceAll]
  | cons c cs ih =>
    rw [replaceAll]
    by_cases hc : a = c
    · subst hc
      simp [List.isPrefixOf, ih]
    · have hp : ([a].isPrefixOf (c :: cs)) = false := by
        simp [List.isPrefixOf, hc]
      have hca : ¬ c = a := fun hca => hc hca.symm
      simp [hp, ih, hca]

/-- C7 counterexample: `to_daily` is not idempotent for CMOR member keys —
on the "Omon" table one application gives "Oday" but a second application
rewrites that to "day". -/
theorem cmor_to_daily_not_idempotent :
    egCmorMember.to_daily.to_daily ≠ egCmorMember.to_daily
  ∧ egCmorMember.to_daily.cmor_table = "Oday".toList
  ∧ egCmorMember.to_daily.to_daily.cmor_table = "day".toList := by
  refine ⟨?_, rfl, rfl⟩
  intro h
  have := congrArg CmorEerieMember.cmor_table h
  simp [CmorEerieMember.to_daily, egCmorMember] at this

/-- C7 amended: `to_ocean` is idempotent for both member variants and
`to_daily` is idempotent for `EERIEMember`; for `CmorEerieMember`,
`to_daily` is idempotent exactly on keys whose table is not "Omon" (on
"Omon" the two applications give "Oday" and then "day").  All four
transforms are pure functions returning a new key. -/
theorem member_transform_idempotence_amended (e : EERIEMember) (c : CmorEerieMember) :
    e.to_ocean.to_ocean = e.to_ocean
  ∧ e.to_daily.to_daily = e.to_daily
  ∧ c.to_ocean.to_ocean = c.to_ocean
  ∧ (c.cmor_table ≠ "Omon".toList → c.to_daily.to_daily = c.to_daily) := by
  refine ⟨rfl, rfl, ?_, ?_⟩
  · show CmorEerieMember.mk _ _ _ _ _ = CmorEerieMember.mk _ _ _ _ _
    have hA : "A".toList = ['A'] := rfl
    have hO : "O".toList = ['O'] := rfl
    simp only [CmorEerieMember.to_ocean, hA, hO, replaceAll_single_eq_map, List.map_map]
    congr 1
    apply List.map_congr_left
    intro x _
    by_cases hx : x = 'A' <;> simp [hx, Function.comp]
  · intro h
    simp only [CmorEerieMember.to_daily, if_neg h]
    have hd : ("day".toList = "Omon".toList) = False := by simp
    simp [hd]

/-- Witness for C7 on concrete keys (an EERIE member and a CMOR member
whose table "Amon" is not "Omon"). -/
theorem member_transform_idempotence_witness :
    egEERIEMember.to_ocean.to_ocean = egEERIEMember.to_ocean
  ∧ egCmorMemberA.to_daily.to_daily = egCmorMemberA.to_daily :=
  ⟨(member_transform_idempotence_amended egEERIEMember egCmorMemberA).1,
   (member_transform_idempotence_amended egEERIEMember egCmorMemberA).2.2.2 (by decide)⟩

theorem map_fst_filter_zip {α β : Type} (p : α → Bool) :
    ∀ (l1 : List α) (l2 : List β), l1.length = l2.length →
      (((l1.zip l2).filter (fun ab => p ab.1)).map Prod.fst) = l1.filter p := by
  intro l1
  induction l1 with
  | nil => intro l2 h; simp
  | cons a t ih =>
    intro l2 h
    cases l2 with
    | nil => simp at h
    | cons b t2 =>
      have ht := ih t2 (by simpa using h)
      by_cases hpa : p a <;> simp [List.filter_cons, hpa, ht]

/-- C8: `slice_period` raises `EmptySliceError` exactly when the dataset
has no time point inside the inclusive range [start-01-01, end-12-31];
otherwise it returns the restriction itself, which is non-empty and all of
whose time coordinates lie in that range. -/
theorem slice_period_empty_iff (ds : TDataset) (p : ℤ × ℤ)
    (hw : ds.times.length = ds.var.length) :
    ((slice_period ds p = .error .emptySlice) ↔ ds.times.filter (inPeriod p) = [])
  ∧ (∀ sl, slice_period ds p = .ok sl →
      sl.times ≠ [] ∧ sl.times = ds.times.filter (inPeriod p)
      ∧ ∀ t, t ∈ sl.times → inPeriod p t = true) := by
  have hfst : (((ds.times.zip ds.var).filter (fun tv => inPeriod p tv.1)).map Prod.fst)
      = ds.times.filter (inPeriod p) := map_fst_filter_zip _ ds.times ds.var hw
  constructor
  · unfold slice_period
    by_cases h0 : ((ds.times.zip ds.var).filter (fun tv => inPeriod p tv.1)).length = 0
    · simp only [if_pos h0]
      have : (ds.times.zip ds.var).filter (fun tv => inPeriod p tv.1) = [] :=
        List.length_eq_zero.mp h0
      rw [this] at hfst
      simp [← hfst]
    · simp only [if_neg h0]
      constructor
      · intro hcontra
        exact absurd hcontra (by simp)
      · intro hnil
        rw [hnil] at hfst
        have : (ds.times.zip ds.var).filter (fun tv => inPeriod p tv.1) = [] :=
          List.map_eq_nil_iff.mp hfst
        exact absurd (by rw [this]; rfl) h0
  · intro sl hsl
    unfold slice_period at hsl
    by_cases h0 : ((ds.times.zip ds.var).filter (fun tv => inPeriod p tv.1)).length = 0
    · rw [if_pos h0] at hsl
      exact absurd hsl (by simp)
    · rw [if_neg h0] at hsl
      have hsl2 : sl = ⟨((ds.times.zip ds.var).filter (fun tv => inPeriod p tv.1)).map Prod.fst,
          ((ds.times.zip ds.var).filter (fun tv => inPeriod p tv.1)).map Prod.snd⟩ := by
        injection hsl with h1
        exact h1.symm
      subst hsl2
      refine ⟨?_, hfst, ?_⟩
      · simp only [hfst]
        intro hnil
        rw [hnil] at hfst
        have : (ds.times.zip ds.var).filter (fun tv => inPeriod p tv.1) = [] :=
          List.map_eq_nil_iff.mp hfst
        exact absurd (by rw [this]; rfl) h0
      · intro t ht
        simp only [hfst] at ht
        exact (List.mem_filter.mp ht).2

/-- Witness for C8: a two-step dataset sliced to a period containing only
its first time point. -/
theorem slice_period_empty_iff_witness :
    slice_period egSliceDS (2000, 2001) = .ok ⟨[⟨2000, 5, 1⟩], [[EFloat.fin 1]]⟩
  ∧ ([(⟨2000, 5, 1⟩ : Date)] ≠ [] ∧
      [(⟨2000, 5, 1⟩ : Date)] = egSliceDS.times.filter (inPeriod (2000, 2001))
      ∧ ∀ t, t ∈ [(⟨2000, 5, 1⟩ : Date)] → inPeriod (2000, 2001) t = true) :=
  ⟨by decide,
   (slice_period_empty_iff egSliceDS (2000, 2001) rfl).2
     ⟨[⟨2000, 5, 1⟩], [[EFloat.fin 1]]⟩ (by decide)⟩

/-- C9 counterexample: the claim fails for a dataset whose time axis is
empty — `get_decadal_product` raises `EmptySliceError`, but the recovery
path's `isel(time=0)` then raises an IndexError instead of returning the
all-NaN placeholder, so an error still propagates. -/
theorem fill_with_nan_counterexample :
    get_decadal_product stubFuns ⟨[], []⟩ (2000, 2001) .clim = .error .emptySlice
  ∧ get_decadal_product_or_fill_with_nan stubFuns ⟨[], []⟩ (2000, 2001) .clim
      = .error .indexError :=
  ⟨rfl, rfl⟩

/-- C9 amended: for every dataset with at least one time step, whenever
`get_decadal_product` raises `EmptySliceError` the wrapper
`get_decadal_product_or_fill_with_nan` catches it and returns the
placeholder built from the first time slice: same spatial length as the
input fields and every value NaN; no error propagates. -/
theorem get_decadal_product_fill_nan_amended (fns : ExtFuns) (ds : TDataset)
    (period : ℤ × ℤ) (product : DecadalProduct)
    (ht : ds.times ≠ []) (hw : ds.times.length = ds.var.length)
    (he : get_decadal_product fns ds period product = .error .emptySlice) :
    get_decadal_product_or_fill_with_nan fns ds period product =
      .ok ⟨(ds.var.headD []).map (fun _ => EFloat.nan), none⟩
  ∧ ((ds.var.headD []).map (fun _ => EFloat.nan)).length = (ds.var.headD []).length
  ∧ ∀ w, w ∈ (ds.var.headD []).map (fun _ => EFloat.nan) → w = EFloat.nan := by
  obtain ⟨t0, trest, htt⟩ : ∃ t0 trest, ds.times = t0 :: trest := by
    cases h : ds.times with
    | nil => exact absurd h ht
    | cons t0 trest => exact ⟨t0, trest, rfl⟩
  obtain ⟨f0, frest, hf⟩ : ∃ f0 frest, ds.var = f0 :: frest := by
    cases h : ds.var with
    | nil => rw [htt, h] at hw; simp at hw
    | cons f0 frest => exact ⟨f0, frest, rfl⟩
  refine ⟨?_, by simp, ?_⟩
  · unfold get_decadal_product_or_fill_with_nan
    rw [he, htt, hf]
    rfl
  · intro w hwmem
    obtain ⟨b, _, hfb⟩ := List.mem_map.mp hwmem
    exact hfb.symm

/-- Witness for C9 at a dataset lying entirely outside the requested
period: the wrapper returns the two-cell all-NaN placeholder. -/
theorem get_decadal_product_fill_nan_witness :
    get_decadal_product_or_fill_with_nan stubFuns egNanDS (2000, 2001) .clim
      = .ok ⟨[EFloat.nan, EFloat.nan], none⟩ :=
  (get_decadal_product_fill_nan_amended stubFuns egNanDS (2000, 2001) .clim
    (by decide) rfl (by decide)).1

theorem divPy_okOrZero (a b : EFloat) : okOrZeroDiv (EFloat.divPy a b) := by
  unfold okOrZeroDiv EFloat.divPy
  by_cases hb : b.isZeroE
  · right
    simp [hb]
  · left
    simp [hb, Except.isOk, Except.toBool]

theorem ok_okOrZero {α : Type} (a : α) : okOrZeroDiv ((Except.ok a) : Except PyErr α) :=
  Or.inl rfl

theorem bind_okOrZero {α β : Type} (m : Except PyErr α) (f : α → Except PyErr β)
    (hm : okOrZeroDiv m) (hf : ∀ a, okOrZeroDiv (f a)) : okOrZeroDiv (m >>= f) := by
  cases m with
  | ok a => exact hf a
  | error e =>
    rcases hm with hm | hm
    · simp [Except.isOk, Except.toBool] at hm
    · injection hm with he
      subst he
      right
      rfl

theorem ite_okOrZero {α : Type} (c : Prop) [Decidable c] (t e : Except PyErr α)
    (ht : okOrZeroDiv t) (he : okOrZeroDiv e) : okOrZeroDiv (if c then t else e) := by
  split
  · exact ht
  · exact he

theorem mklrPy_okOrZero (sqrtF : EFloat → EFloat) (x y : List EFloat)
    (h : x.length = y.length) : okOrZeroDiv (mklrPy sqrtF x y) := by
  unfold mklrPy
  rw [if_neg (by simp [h])]
  refine bind_okOrZero _ _ (divPy_okOrZero _ _) (fun r0 => ?_)
  refine bind_okOrZero _ _ (divPy_okOrZero _ _) (fun r1 => ?_)
  refine bind_okOrZero _ _ (divPy_okOrZero _ _) (fun q0 => ?_)
  refine bind_okOrZero _ _ (divPy_okOrZero _ _) (fun q1 => ?_)
  refine bind_okOrZero _ _ (divPy_okOrZero _ _) (fun q2 => ?_)
  refine bind_okOrZero _ _ (divPy_okOrZero _ _) (fun q3 => ?_)
  exact ok_okOrZero _

theorem ltrPy_okOrZero (fns : ExtFuns) (x y : List EFloat) (p : EFloat) :
    okOrZeroDiv (ltr_OLSdofrNaNPy fns x y p) := by
  unfold ltr_OLSdofrNaNPy
  refine ite_okOrZero _ _ _ (ok_okOrZero _) ?_
  refine bind_okOrZero _ _ (mklrPy_okOrZero _ _ _ (by simp)) (fun t => ?_)
  obtain ⟨a, sa, b, sb⟩ := t
  refine ite_okOrZero _ _ _ (ok_okOrZero _) ?_
  refine bind_okOrZero _ _ (divPy_okOrZero _ _) (fun dofr => ?_)
  refine ite_okOrZero _ _ _ ?_ (ok_okOrZero _)
  refine bind_okOrZero _ _ (divPy_okOrZero _ _) (fun w0 => ?_)
  refine bind_okOrZero _ _ (divPy_okOrZero _ _) (fun w1 => ?_)
  refine bind_okOrZero _ _ (divPy_okOrZero _ _) (fun w2 => ?_)
  exact ok_okOrZero _

/-- C4 counterexample: the no-exception guarantee is false of the code.
Both regression functions run under numba's DEFAULT error model "python",
so a zero-denominator scalar division raises `ZeroDivisionError`: on the
equal-length input x = [1,1,1] (zero-variance predictor), y = [1,2,3], the
normal-equation denominator `s2*s0 - s1**2` is exactly 0 and `mklr` — and
with it `ltr_OLSdofrNaN` — raises instead of returning +inf/NaN
sentinels. -/
theorem ltr_zero_variance_raises :
    (([EFloat.fin 1, EFloat.fin 1, EFloat.fin 1] : List EFloat).length
      = ([EFloat.fin 1, EFloat.fin 2, EFloat.fin 3] : List EFloat).length)
  ∧ mklrPy stubFuns.sqrt [EFloat.fin 1, EFloat.fin 1, EFloat.fin 1]
      [EFloat.fin 1, EFloat.fin 2, EFloat.fin 3] = .error .zeroDivision
  ∧ ltr_OLSdofrNaNPy stubFuns [EFloat.fin 1, EFloat.fin 1, EFloat.fin 1]
      [EFloat.fin 1, EFloat.fin 2, EFloat.fin 3] (EFloat.fin (9 / 10))
      = .error .zeroDivision := by
  refine ⟨rfl, ?_, ?_⟩ <;> with_unfolding_all rfl

/-- C4 amended: `mklr` raises `NotImplementedError` exactly when the two
input lengths differ; beyond that, under numba's default python error
model the only possible exception is the `ZeroDivisionError` of a
zero-denominator scalar division (zero-variance predictor values, n = 2,
or a zero adjusted standard error): on every pair of equal-length inputs
`ltr_OLSdofrNaN` either returns the result tuple or raises
`ZeroDivisionError`, for every instantiation of the external numerics. -/
theorem ltr_raises_only_on_mismatch_or_zero_division (fns : ExtFuns)
    (x y : List EFloat) (p : EFloat) :
    ((mklrPy fns.sqrt x y = .error .notImplemented) ↔ x.length ≠ y.length)
  ∧ (x.length = y.length →
      (ltr_OLSdofrNaNPy fns x y p).isOk = true
      ∨ ltr_OLSdofrNaNPy fns x y p = .error .zeroDivision) := by
  constructor
  · constructor
    · intro herr
      by_contra hne
      have heq : x.length = y.length := hne
      rcases mklrPy_okOrZero fns.sqrt x y heq with hok | hzd
      · rw [herr] at hok
        simp [Except.isOk, Except.toBool] at hok
      · rw [herr] at hzd
        injection hzd with hc
        exact PyErr.noConfusion hc
    · intro hne
      unfold mklrPy
      rw [if_pos hne]
  · intro _
    exact ltrPy_okOrZero fns x y p

/-- Witness for C4: a concrete equal-length input on the no-raise side of
the disjunction, and a concrete length mismatch raising. -/
theorem ltr_raises_only_on_mismatch_or_zero_division_witness :
    ((ltr_OLSdofrNaNPy stubFuns [EFloat.fin 1] [EFloat.fin 2]
        (EFloat.fin (9 / 10))).isOk = true
      ∨ ltr_OLSdofrNaNPy stubFuns [EFloat.fin 1] [EFloat.fin 2] (EFloat.fin (9 / 10))
          = .error .zeroDivision)
  ∧ mklrPy stubFuns.sqrt [EFloat.fin 1] [] = .error .notImplemented :=
  ⟨(ltr_raises_only_on_mismatch_or_zero_division stubFuns [EFloat.fin 1] [EFloat.fin 2]
      (EFloat.fin (9 / 10))).2 rfl,
   (ltr_raises_only_on_mismatch_or_zero_division stubFuns [EFloat.fin 1] []
      (EFloat.fin (9 / 10))).1.mpr (by decide)⟩

theorem dropRealization_no_realization_name (d : FetchDS) :
    realizationInDataset (dropRealization d) = false := by
  cases d <;> rfl

/-- C10 counterexample: the claimed invariant fails on a fetched dataset
with a bare realization dimension — the guard `"realization" in dataset`
tests variable/coordinate names, so the dataset is returned with its
realization dimension intact and unaveraged.  Moreover the retry arm never
supplies a dataset: after a `KeyError`, `retry_get_entry_with_fixes` is
called on the `Member` dataclass and its `member.replace` call raises
`AttributeError`. -/
theorem get_member_dataset_realization_counterexample :
    get_member_dataset egFetchBareDim egMemberObj "r".toList "v".toList
      = .ok (.withRealDimOnly [[EFloat.fin 1], [EFloat.fin 3]], egMemberObj, "r".toList)
  ∧ hasRealizationDim (FetchDS.withRealDimOnly [[EFloat.fin 1], [EFloat.fin 3]]) = true
  ∧ get_member_dataset egFetchKeyErr egMemberObj "r".toList "v".toList
      = .error .attributeError :=
  ⟨rfl, rfl, rfl⟩

/-- C10 amended: every dataset `get_member_dataset` returns comes from a
successful FIRST fetch (after a `KeyError` the retry arm raises
`AttributeError`, so it never yields one) and has no variable or
coordinate named "realization"; whenever the fetched dataset carries the
realization dimension together with its coordinate — the case the
name-membership guard detects — the returned dataset is exactly its mean
over the realization dimension, while a bare realization dimension passes
through unchanged (`ds = dropRealization d`). -/
theorem get_member_dataset_realization_mean_amended
    (fetch : MemberObj → List Char → Except FetchErr FetchDS)
    (member : MemberObj) (rawname varname : List Char)
    (ds : FetchDS) (m : MemberObj) (r : List Char)
    (h : get_member_dataset fetch member rawname varname = .ok (ds, m, r)) :
    realizationInDataset ds = false
  ∧ (∀ d, fetch member rawname = .ok d → ds = dropRealization d)
  ∧ (∀ vs, fetch member rawname = .ok (.withReal vs) → ds = .plain (meanRealization vs))
  ∧ fetch member rawname ≠ .error .keyError := by
  unfold get_member_dataset at h
  cases hf : fetch member rawname with
  | ok d =>
    rw [hf] at h
    injection h with h1
    have hds : dropRealization d = ds := congrArg (fun t => t.1) h1
    refine ⟨hds ▸ dropRealization_no_realization_name d, ?_, ?_, by simp⟩
    · intro d2 hd2
      injection hd2 with h2
      rw [← hds, h2]
    · intro vs hvs
      injection hvs with h2
      rw [← hds, h2]
      rfl
  | error e =>
    cases e with
    | keyError =>
      rw [hf] at h
      exact absurd h (by simp)
    | attributeError =>
      rw [hf] at h
      exact absurd h (by simp)
    | otherError =>
      rw [hf] at h
      exact absurd h (by simp)

/-- Witness for C10: a retrieval stub returning two realizations with the
coordinate present — the result is the plain ensemble mean with no
realization name. -/
theorem get_member_dataset_realization_mean_amended_witness :
    realizationInDataset (FetchDS.plain [EFloat.fin 2]) = false
  ∧ (FetchDS.plain [EFloat.fin 2]
      = FetchDS.plain (meanRealization [[EFloat.fin 1], [EFloat.fin 3]])) :=
  ⟨(get_member_dataset_realization_mean_amended egFetch egMemberObj "r".toList "v".toList
      (.plain [EFloat.fin 2]) egMemberObj "r".toList (by with_unfolding_all rfl)).1,
   (get_member_dataset_realization_mean_amended egFetch egMemberObj "r".toList "v".toList
      (.plain [EFloat.fin 2]) egMemberObj "r".toList (by with_unfolding_all rfl)).2.2.1
     [[EFloat.fin 1], [EFloat.fin 3]] rfl⟩
